import Mathlib

/-!
Verification of the battle engine of the RPG prototype (`main.py`).

The Python source is shallowly embedded: dataclasses become structures,
methods become pure functions that return the updated value, the mutable
`BattleState` becomes explicit state passing, and every call to the global
random source becomes an explicit parameter (the drawn value).  Machine
integers are modelled by `Nat` (all stat, HP and EXP values manipulated by
the game are non-negative integers); probabilities and the damage variance
are modelled by `ℚ`.
-/

set_option linter.unusedVariables false

/-- A move, mirroring the `Move` dataclass: name, power, accuracy in [0,1],
elemental type. -/
structure Move where
  name : String
  power : Nat
  accuracy : ℚ
  type : String
deriving Repr, DecidableEq, Inhabited

/-- A monster, mirroring the `Monster` dataclass (sprites omitted: they are
rendering-only data). -/
structure Monster where
  name : String
  level : Nat
  max_hp : Nat
  current_hp : Nat
  attack : Nat
  defense : Nat
  speed : Nat
  type : String
  moves : List Move
  exp : Nat
  exp_to_next : Nat
deriving Repr, DecidableEq, Inhabited

/-- `Monster.is_fainted`: `return self.current_hp <= 0`. -/
def Monster.is_fainted (m : Monster) : Bool :=
  decide (m.current_hp ≤ 0)

/-- `Monster.heal`: `self.current_hp = self.max_hp`. -/
def Monster.heal (m : Monster) : Monster :=
  { m with current_hp := m.max_hp }

/-- One iteration of the `while self.exp >= self.exp_to_next` loop body of
`Monster.gain_experience`, in source order: subtract the threshold from exp,
raise the level, grow the stats, refill `current_hp` to the (new) `max_hp`,
and grow the threshold via `max(20, int(self.exp_to_next * 1.3))`.  For a
natural threshold `t`, Python's `int(t * 1.3)` is `⌊13 t / 10⌋`, i.e. the
natural-number division `13 * t / 10`. -/
def levelUpStep (m : Monster) : Monster :=
  { m with
    exp := m.exp - m.exp_to_next
    level := m.level + 1
    max_hp := m.max_hp + 3
    attack := m.attack + 2
    defense := m.defense + 2
    speed := m.speed + 1
    current_hp := m.max_hp + 3
    exp_to_next := max 20 (13 * m.exp_to_next / 10) }

/-- The level-up loop of `Monster.gain_experience`: while `exp ≥ exp_to_next`,
apply `levelUpStep` and emit one "grew to level" message.  Returns the final
monster together with the list of level-up messages in emission order. -/
def gainLoop (m : Monster) : Monster × List String :=
  if h : m.exp_to_next ≤ m.exp then
    let m2 := levelUpStep m
    let rest := gainLoop m2
    (rest.1, (m2.name ++ " grew to level " ++ toString m2.level ++ "!") :: rest.2)
  else
    (m, [])
termination_by 2 * m.exp + (if m.exp_to_next = 0 then 1 else 0)
decreasing_by
  simp only [levelUpStep]
  have h20 := Nat.le_max_left 20 (13 * m.exp_to_next / 10)
  rw [if_neg (by omega)]
  split <;> omega

/-- `Monster.gain_experience`: `self.exp += amount` followed by the level-up
loop.  Returns the updated monster and the level-up messages. -/
def Monster.gain_experience (m : Monster) (amount : Nat) : Monster × List String :=
  gainLoop { m with exp := m.exp + amount }

theorem gainLoop_of_le {m : Monster} (h : m.exp_to_next ≤ m.exp) :
    gainLoop m =
      ((gainLoop (levelUpStep m)).1,
        ((levelUpStep m).name ++ " grew to level " ++
          toString (levelUpStep m).level ++ "!") :: (gainLoop (levelUpStep m)).2) := by
  rw [gainLoop]
  simp [h]

theorem gainLoop_of_lt {m : Monster} (h : m.exp < m.exp_to_next) :
    gainLoop m = (m, []) := by
  rw [gainLoop]
  simp [Nat.not_le_of_lt h]

/-- `calculate_damage`, with the uniform draw `U = random.uniform(0.85, 1.0)`
made an explicit parameter:
`base = max(move.power + attacker.attack - int(defender.defense * 0.5), 1)`;
`return max(1, int(base * variance))`.  For a natural `defense`,
`int(defense * 0.5)` is the natural division `defense / 2`; `int(base * U)`
truncates toward zero, which under the outer `max 1` agrees with `⌊base * U⌋`
(both branches collapse to 1 whenever the product is below 1). -/
def calculate_damage (attacker defender : Monster) (move : Move) (U : ℚ) : ℤ :=
  let base : ℤ := max ((move.power : ℤ) + (attacker.attack : ℤ) - ((defender.defense / 2 : ℕ) : ℤ)) 1
  max 1 ⌊(base : ℚ) * U⌋

/-- The damage formula as worded by the spec: base `max(1, power + attack −
floor(defense × 0.5))`, final `max(1, round(base × U))`. -/
def specDamageRound (attacker defender : Monster) (move : Move) (U : ℚ) : ℤ :=
  let base : ℤ := max 1 ((move.power : ℤ) + (attacker.attack : ℤ) - ⌊(defender.defense : ℚ) * (1/2)⌋)
  max 1 (round ((base : ℚ) * U))

/-- The damage formula with the rounding corrected to a floor: base
`max(1, power + attack − floor(defense × 0.5))`, final
`max(1, floor(base × U))`. -/
def specDamageFloor (attacker defender : Monster) (move : Move) (U : ℚ) : ℤ :=
  let base : ℤ := max 1 ((move.power : ℤ) + (attacker.attack : ℤ) - ⌊(defender.defense : ℚ) * (1/2)⌋)
  max 1 ⌊(base : ℚ) * U⌋

/-- `accuracy_check`, with the draw `random.random()` made explicit:
`return r <= move.accuracy`. -/
def accuracy_check (move : Move) (r : ℚ) : Bool :=
  decide (r ≤ move.accuracy)

/-- `calculate_exp_gain`: `return 10 + defeated.level * 5`. -/
def calculate_exp_gain (defeated : Monster) : Nat :=
  10 + defeated.level * 5

/-- The capture probability computed inside `attempt_capture`:
`hp_ratio = enemy.current_hp / enemy.max_hp if enemy.max_hp else 1.0`;
`catch_chance = 0.3 + (1.0 - hp_ratio) * 0.5`. -/
def catch_chance (enemy : Monster) : ℚ :=
  let hpFrac : ℚ := if enemy.max_hp ≠ 0 then (enemy.current_hp : ℚ) / (enemy.max_hp : ℚ) else 1
  3/10 + (1 - hpFrac) * (5/10)

/-- The trainer dictionary consumed by the battle engine (`trainer_info`):
only the keys the battle code reads are modelled. -/
structure TrainerInfo where
  name : String
  is_gym_leader : Bool
  badge_name : Option String
  dialogue_after : List String
deriving Repr, DecidableEq, Inhabited

/-- The `menu_state` string field: "action", "move", or "switch". -/
inductive MenuState where
  | action
  | move
  | switch
deriving Repr, DecidableEq, Inhabited

/-- The callbacks attached to queued messages.  The Python code stores
closures; each closure is represented here by a tag carrying the values it
captures, and is interpreted by `runCb`. -/
inductive Cb where
  /-- `award_exp` in `execute_player_turn`, capturing the attacking player
  monster (by its party index) and the EXP amount. -/
  | awardExp (attackerIndex : Nat) (expGain : Nat)
  /-- `handle_faint` in `execute_enemy_turn`. -/
  | handleFaint
  /-- `finish_capture` in `attempt_capture`. -/
  | finishCapture
  /-- `lambda: setattr(battle, "ended", True)`. -/
  | endBattle
  /-- `finish_battle` in `handle_trainer_follow_up`: installs the end-battle
  lambda as the after-all-messages callback. -/
  | finishBattleDialogue
deriving Repr, DecidableEq, Inhabited

/-- One unit of the message queue: `{"text": ..., "callback": ...}`. -/
structure Message where
  text : String
  callback : Option Cb
deriving Repr, DecidableEq, Inhabited

/-- `BattleState`.  `player_monster` and `enemy_monster` are aliases into the
party lists in Python; here they are the derived views `playerMonster` and
`enemyMonster` below, and every mutation writes through to the lists. -/
structure BattleState where
  player_party : List Monster
  trainer_info : Option TrainerInfo
  enemy_party : List Monster
  enemy_active_index : Nat
  max_party_size : Nat
  active_index : Nat
  switch_index : Nat
  force_switch : Bool
  menu_state : MenuState
  action_index : Nat
  move_index : Nat
  message_queue : List Message
  pending_enemy_turn : Bool
  after_battle_callback : Option Cb
  ended : Bool
  action_options : List String
  captured_monster : Option Monster
  captured_to_storage : Bool
  trainer_defeated : Bool
  badge_earned : Option String
deriving Repr, DecidableEq, Inhabited

/-- The view `battle.player_monster` (alias of
`battle.player_party[battle.active_index]`). -/
def BattleState.playerMonster (b : BattleState) : Monster :=
  b.player_party.getD b.active_index default

/-- The view `battle.enemy_monster` (alias of
`battle.enemy_party[battle.enemy_active_index]`). -/
def BattleState.enemyMonster (b : BattleState) : Monster :=
  b.enemy_party.getD b.enemy_active_index default

/-- `BattleState.party_size`. -/
def BattleState.party_size (b : BattleState) : Nat :=
  b.player_party.length

/-- `BattleState.available_switch_targets`. -/
def BattleState.available_switch_targets (b : BattleState) : List Nat :=
  (List.range b.player_party.length).filter
    (fun idx => idx ≠ b.active_index ∧ (b.player_party.getD idx default).is_fainted = false)

/-- `BattleState.set_active_monster` (the `player_monster` alias is the
derived view, so only the indices change). -/
def BattleState.set_active_monster (b : BattleState) (index : Nat) : BattleState :=
  { b with active_index := index, switch_index := index }

/-- `BattleState.set_enemy_monster`. -/
def BattleState.set_enemy_monster (b : BattleState) (index : Nat) : BattleState :=
  { b with enemy_active_index := index }

/-- `BattleState.next_enemy_index`: the first enemy-party index strictly
after the active one holding a non-fainted monster. -/
def BattleState.next_enemy_index (b : BattleState) : Option Nat :=
  (List.range b.enemy_party.length).find?
    (fun idx => decide (b.enemy_active_index < idx) &&
      !(b.enemy_party.getD idx default).is_fainted)

/-- `BattleState.first_available_switch`: the first party index other than
the active one holding a non-fainted monster. -/
def BattleState.first_available_switch (b : BattleState) : Option Nat :=
  (List.range b.player_party.length).find?
    (fun idx => decide (idx ≠ b.active_index) &&
      !(b.player_party.getD idx default).is_fainted)

/-- `BattleState.queue_message`: append one unit at the back of the queue. -/
def BattleState.queue_message (b : BattleState) (text : String)
    (callback : Option Cb) : BattleState :=
  { b with message_queue := b.message_queue ++ [⟨text, callback⟩] }

/-- `BattleState.pop_message`: remove and return the front unit, if any. -/
def BattleState.pop_message (b : BattleState) : Option Message × BattleState :=
  match b.message_queue with
  | [] => (none, b)
  | u :: rest => (some u, { b with message_queue := rest })

/-- `enemy_label`. -/
def enemy_label (b : BattleState) (monster : Monster) : String :=
  match b.trainer_info with
  | some tr => tr.name ++ "\x27s " ++ monster.name
  | none => "Wild " ++ monster.name

/-- Enqueue a list of plain texts in order (the `for message in level_messages`
loop of `award_exp`). -/
def BattleState.queue_texts (b : BattleState) (texts : List String) : BattleState :=
  texts.foldl (fun bb t => bb.queue_message t none) b

/-- The post-battle dialogue units enqueued by `handle_trainer_follow_up`:
each line becomes one message, and the last one carries the `finish_battle`
callback. -/
def dialogueMessages (trName : String) (lines : List String) : List Message :=
  lines.mapIdx (fun i line =>
    ⟨trName ++ ": " ++ line,
      if i + 1 = lines.length then some .finishBattleDialogue else none⟩)

/-- `handle_trainer_follow_up` (nested in `execute_player_turn`): wild battles
schedule the end of the battle; trainer battles either send out the next
non-fainted team member or mark the trainer defeated, award the badge of a
gym leader, and replay the post-battle dialogue. -/
def handle_trainer_follow_up (b : BattleState) : BattleState :=
  match b.trainer_info with
  | none => { b with after_battle_callback := some .endBattle }
  | some tr =>
    match b.next_enemy_index with
    | none =>
      let b1 := { b with trainer_defeated := true }
      let b2 :=
        if tr.is_gym_leader = true ∧ tr.badge_name.getD "" ≠ "" then
          { b1 with badge_earned := some (tr.badge_name.getD "") }
        else b1
      if tr.dialogue_after.isEmpty then
        { b2 with after_battle_callback := some .endBattle }
      else
        { b2 with message_queue := b2.message_queue ++ dialogueMessages tr.name tr.dialogue_after }
    | some idx =>
      let b1 := b.set_enemy_monster idx
      b1.queue_message (tr.name ++ " sent out " ++ b1.enemyMonster.name ++ "!") none

/-- Interpreter for the message callbacks: each branch is the body of the
corresponding Python closure. -/
def runCb : Cb → BattleState → BattleState
  | .awardExp attackerIndex expGain, b =>
    let attacker := b.player_party.getD attackerIndex default
    let res := attacker.gain_experience expGain
    let b1 := { b with player_party := b.player_party.set attackerIndex res.1 }
    handle_trainer_follow_up (b1.queue_texts res.2)
  | .handleFaint, b =>
    match b.first_available_switch with
    | some idx => { b with force_switch := true, menu_state := .switch, switch_index := idx }
    | none => { b with after_battle_callback := some .endBattle }
  | .finishCapture, b =>
    let enemy := b.enemyMonster
    let b1 := { b with
      captured_monster := some enemy
      captured_to_storage := decide (b.max_party_size ≤ b.party_size) }
    let b2 :=
      if b1.captured_to_storage then
        b1.queue_message (enemy.name ++ " will be sent to storage.") none
      else b1
    { b2 with after_battle_callback := some .endBattle }
  | .endBattle, b => { b with ended := true }
  | .finishBattleDialogue, b => { b with after_battle_callback := some .endBattle }

/-- The message-consumption step of `handle_battle_input` (the branch taken
while `battle.message_queue` is non-empty and a confirm key is pressed): pop
the front unit and, if it carries a callback, run that callback once. -/
def advanceMessage (b : BattleState) : BattleState :=
  let popped := b.pop_message
  match popped.1 with
  | some u =>
    match u.callback with
    | some cb => runCb cb popped.2
    | none => popped.2
  | none => popped.2

/-- `execute_player_turn`, with the two random draws (accuracy roll and
damage variance) made explicit parameters. -/
def execute_player_turn (b : BattleState) (move : Move) (accRoll U : ℚ) : BattleState :=
  let attacker := b.playerMonster
  let defender := b.enemyMonster
  if accuracy_check move accRoll = false then
    let b1 := b.queue_message (attacker.name ++ "\x27s " ++ move.name ++ " missed!") none
    { b1 with pending_enemy_turn := true, menu_state := .action, action_index := 0 }
  else
    let damage := calculate_damage attacker defender move U
    let defender2 := { defender with current_hp := defender.current_hp - damage.toNat }
    let b1 := { b with enemy_party := b.enemy_party.set b.enemy_active_index defender2 }
    let b2 := (b1.queue_message (attacker.name ++ " used " ++ move.name ++ "!") none).queue_message
      ("It dealt " ++ toString damage ++ " damage!") none
    if defender2.is_fainted then
      let expGain := calculate_exp_gain defender2
      let b3 := b2.queue_message (enemy_label b2 defender2 ++ " fainted!") none
      let b4 := b3.queue_message (attacker.name ++ " gained " ++ toString expGain ++ " EXP!")
        (some (.awardExp b.active_index expGain))
      { b4 with pending_enemy_turn := false, menu_state := .action, action_index := 0 }
    else
      { b2 with pending_enemy_turn := true, menu_state := .action, action_index := 0 }

/-- `execute_enemy_turn`, with `random.choice(attacker.moves)` replaced by an
explicit index into the move list and the two random draws made explicit. -/
def execute_enemy_turn (b : BattleState) (moveIndex : Nat) (accRoll U : ℚ) : BattleState :=
  let attacker := b.enemyMonster
  let defender := b.playerMonster
  let move := attacker.moves.getD moveIndex default
  if accuracy_check move accRoll = false then
    b.queue_message (enemy_label b attacker ++ "\x27s " ++ move.name ++ " missed!") none
  else
    let damage := calculate_damage attacker defender move U
    let defender2 := { defender with current_hp := defender.current_hp - damage.toNat }
    let b1 := { b with player_party := b.player_party.set b.active_index defender2 }
    let b2 := (b1.queue_message (enemy_label b1 attacker ++ " used " ++ move.name ++ "!") none).queue_message
      ("It dealt " ++ toString damage ++ " damage!") none
    if defender2.is_fainted then
      b2.queue_message (defender2.name ++ " fainted!") (some .handleFaint)
    else b2

/-- `attempt_capture`, with the capture roll made explicit. -/
def attempt_capture (b : BattleState) (roll : ℚ) : BattleState :=
  if b.trainer_info.isSome then
    let b1 := b.queue_message "You can\x27t capture a trainer\x27s partner!" none
    { b1 with pending_enemy_turn := true, menu_state := .action, action_index := 0 }
  else
    let b1 := b.queue_message "You threw a capture charm!" none
    let enemy := b1.enemyMonster
    let b2 :=
      if roll ≤ catch_chance enemy then
        { (b1.queue_message ("You caught " ++ enemy.name ++ "!") (some .finishCapture)) with
          pending_enemy_turn := false }
      else
        { (b1.queue_message (enemy.name ++ " broke free!") none) with
          pending_enemy_turn := true }
    { b2 with menu_state := .action, action_index := 0 }

/-- `attempt_escape`, with the escape roll made explicit. -/
def attempt_escape (b : BattleState) (roll : ℚ) : BattleState :=
  if b.trainer_info.isSome then
    { (b.queue_message "The trainer blocks your escape!" none) with pending_enemy_turn := true }
  else if roll < 1/2 then
    b.queue_message "Got away safely!" (some .endBattle)
  else
    { (b.queue_message "Couldn\x27t escape!" none) with pending_enemy_turn := true }

/-- `perform_player_switch`. -/
def perform_player_switch (b : BattleState) (newIndex : Nat) (costsTurn : Bool) : BattleState :=
  let b1 := b.set_active_monster newIndex
  let b2 := { b1 with
    force_switch := false
    menu_state := MenuState.action
    action_index := 0
    move_index := 0
    pending_enemy_turn := costsTurn }
  b2.queue_message ("Go " ++ b2.playerMonster.name ++ "!") none

/-- The confirm branch of `handle_battle_input` in the `switch` menu state:
re-selecting the active monster or a fainted monster enqueues a rejection and
returns; otherwise the switch is performed (costing a turn unless it was
forced). -/
def handle_switch_confirm (b : BattleState) : BattleState :=
  if b.switch_index = b.active_index then
    b.queue_message "That monster is already in battle!" none
  else
    let chosen := b.player_party.getD b.switch_index default
    if chosen.is_fainted then
      b.queue_message (chosen.name ++ " can\x27t fight!") none
    else
      perform_player_switch b b.switch_index (!b.force_switch)

/-- `BattleState.__init__`, with the two `raise ValueError` paths modelled by
`Except.error` carrying the exception message. -/
def BattleState.init (player_party : List Monster) (enemy_monster : Monster)
    (max_party_size : Nat) (trainer : Option TrainerInfo)
    (enemy_party : Option (List Monster)) : Except String BattleState :=
  if player_party.isEmpty then
    .error "Player party cannot be empty when a battle begins."
  else if player_party.all (fun m => m.is_fainted) then
    .error "All party monsters have fainted and cannot battle."
  else
    let ep :=
      match enemy_party with
      | some l => if l.isEmpty then [enemy_monster] else l
      | none => [enemy_monster]
    let preferred_lead :=
      if (player_party.getD 0 default).is_fainted then
        ((List.range player_party.length).find?
          (fun idx => !(player_party.getD idx default).is_fainted)).getD 0
      else 0
    .ok {
      player_party := player_party
      trainer_info := trainer
      enemy_party := ep
      enemy_active_index := 0
      max_party_size := max_party_size
      active_index := preferred_lead
      switch_index := preferred_lead
      force_switch := false
      menu_state := .action
      action_index := 0
      move_index := 0
      message_queue := []
      pending_enemy_turn := false
      after_battle_callback := none
      ended := false
      action_options :=
        if trainer.isSome then ["Fight", "Switch", "Run"]
        else ["Fight", "Switch", "Catch", "Run"]
      captured_monster := none
      captured_to_storage := false
      trainer_defeated := false
      badge_earned := none }

/-!
## Claims
-/

/-- Claim C1, counterexample: with attacker attack 5, defender defense 4 and
move power 1, the base is `max(1, 1 + 5 − 2) = 4`; at the legal draw
`U = 9/10` the code returns `max(1, ⌊3.6⌋) = 3` while the spec's
`max(1, round(3.6))` is 4, so the claimed `round` is wrong. -/
theorem C1_round_counterexample :
    (85/100 : ℚ) ≤ 9/10 ∧ (9/10 : ℚ) ≤ 1 ∧
    calculate_damage ⟨"A", 1, 20, 20, 5, 4, 3, "fire", [], 0, 20⟩
      ⟨"D", 1, 20, 20, 5, 4, 3, "water", [], 0, 20⟩ ⟨"Jab", 1, 1, "normal"⟩ (9/10) = 3 ∧
    specDamageRound ⟨"A", 1, 20, 20, 5, 4, 3, "fire", [], 0, 20⟩
      ⟨"D", 1, 20, 20, 5, 4, 3, "water", [], 0, 20⟩ ⟨"Jab", 1, 1, "normal"⟩ (9/10) = 4 ∧
    (3 : ℤ) ≠ 4 := by
  refine ⟨by norm_num, by norm_num, ?_, ?_, by decide⟩
  · simp only [calculate_damage]
    norm_num [max_def]
  · simp only [specDamageRound]
    norm_num [max_def, round_eq]

/-- Claim C1, amended: for every attacker, defender and move, with the
uniform draw `U` from `[0.85, 1.0]` taken as a hypothesis, the damage
function returns `max(1, floor(base × U))` (not `round`) where
`base = max(1, move.power + attacker.attack − floor(defender.defense × 0.5))`. -/
theorem C1_damage_uses_floor (attacker defender : Monster) (move : Move) (U : ℚ)
    (h1 : 85/100 ≤ U) (h2 : U ≤ 1) :
    calculate_damage attacker defender move U = specDamageFloor attacker defender move U := by
  simp only [calculate_damage, specDamageFloor]
  rw [mul_one_div, show ((2 : ℚ)) = ((2 : ℕ) : ℚ) from by norm_num,
    Rat.floor_natCast_div_natCast,
    max_comm ((move.power : ℤ) + (attacker.attack : ℤ) - ((defender.defense / 2 : ℕ) : ℤ)) 1]
  norm_cast

/-- Witness for C1: the amended equation instantiated at a concrete battle
and the legal draw `U = 9/10`. -/
theorem C1_damage_uses_floor_witness :
    (85/100 : ℚ) ≤ 9/10 ∧ (9/10 : ℚ) ≤ 1 ∧
    calculate_damage ⟨"A", 1, 20, 20, 5, 4, 3, "fire", [], 0, 20⟩
        ⟨"D", 1, 20, 20, 5, 4, 3, "water", [], 0, 20⟩ ⟨"Jab", 1, 1, "normal"⟩ (9/10) =
      specDamageFloor ⟨"A", 1, 20, 20, 5, 4, 3, "fire", [], 0, 20⟩
        ⟨"D", 1, 20, 20, 5, 4, 3, "water", [], 0, 20⟩ ⟨"Jab", 1, 1, "normal"⟩ (9/10) :=
  ⟨by norm_num, by norm_num,
    C1_damage_uses_floor _ _ _ _ (by norm_num) (by norm_num)⟩

/-- The conclusion of claim C5 for one enemy monster: the capture probability
equals the spec formula, lies in `[0.3, 0.8]`, is `0.3` at full HP and `0.8`
at zero HP, and never decreases when the HP fraction decreases. -/
def catchChanceSpec (e : Monster) : Prop :=
  catch_chance e = 3/10 + (1 - (e.current_hp : ℚ) / (e.max_hp : ℚ)) * (5/10) ∧
  3/10 ≤ catch_chance e ∧ catch_chance e ≤ 8/10 ∧
  (e.current_hp = e.max_hp → catch_chance e = 3/10) ∧
  (e.current_hp = 0 → catch_chance e = 8/10) ∧
  (∀ e2 : Monster, 0 < e2.max_hp →
    (e2.current_hp : ℚ) / (e2.max_hp : ℚ) ≤ (e.current_hp : ℚ) / (e.max_hp : ℚ) →
    catch_chance e ≤ catch_chance e2)

theorem catch_chance_eq (e : Monster) (h : e.max_hp ≠ 0) :
    catch_chance e = 3/10 + (1 - (e.current_hp : ℚ) / (e.max_hp : ℚ)) * (5/10) := by
  simp [catch_chance, h]

/-- Claim C5: for every enemy monster with `max_hp > 0` and
`0 ≤ current_hp ≤ max_hp`, the capture probability used by the capture
attempt satisfies the spec formula, its range, its endpoint values and
monotonicity in the HP fraction. -/
theorem C5_catch_probability (e : Monster) (hmax : 0 < e.max_hp)
    (hhp : e.current_hp ≤ e.max_hp) : catchChanceSpec e := by
  have hne : e.max_hp ≠ 0 := Nat.pos_iff_ne_zero.mp hmax
  have hq : (0 : ℚ) < (e.max_hp : ℚ) := by exact_mod_cast hmax
  have hr0 : (0 : ℚ) ≤ (e.current_hp : ℚ) / (e.max_hp : ℚ) := by positivity
  have hr1 : (e.current_hp : ℚ) / (e.max_hp : ℚ) ≤ 1 :=
    (div_le_one hq).mpr (by exact_mod_cast hhp)
  refine ⟨catch_chance_eq e hne, ?_, ?_, ?_, ?_, ?_⟩
  · rw [catch_chance_eq e hne]; linarith
  · rw [catch_chance_eq e hne]; linarith
  · intro hfull
    rw [catch_chance_eq e hne, hfull, div_self (ne_of_gt hq)]
    ring
  · intro hzero
    rw [catch_chance_eq e hne, hzero]
    norm_num
  · intro e2 hmax2 hle
    have hne2 : e2.max_hp ≠ 0 := Nat.pos_iff_ne_zero.mp hmax2
    rw [catch_chance_eq e hne, catch_chance_eq e2 hne2]
    linarith

/-- Witness for C5: the capture-probability properties instantiated at a
half-HP enemy. -/
theorem C5_catch_probability_witness :
    0 < (⟨"E", 1, 20, 10, 5, 4, 3, "water", [], 0, 20⟩ : Monster).max_hp ∧
    catchChanceSpec ⟨"E", 1, 20, 10, 5, 4, 3, "water", [], 0, 20⟩ :=
  ⟨by decide, C5_catch_probability _ (by decide) (by decide)⟩

/-- Claim C7: constructing a battle fails exactly when the player party is
empty or entirely fainted; every non-empty party with a live member yields a
battle state. -/
theorem C7_invalid_party_error (pp : List Monster) (em : Monster) (mps : Nat)
    (tr : Option TrainerInfo) (ep : Option (List Monster)) :
    (BattleState.init pp em mps tr ep).isOk = false ↔
      (pp = [] ∨ ∀ m ∈ pp, m.is_fainted = true) := by
  simp only [BattleState.init]
  by_cases h1 : pp.isEmpty
  · simp [h1, List.isEmpty_iff.mp h1, Except.isOk, Except.toBool]
  · by_cases h2 : pp.all (fun m => m.is_fainted)
    · simp only [h1, Bool.false_eq_true, if_false, h2, if_true, Except.isOk, Except.toBool]
      simp only [List.all_eq_true] at h2
      simp only [eq_self_iff_true, true_iff]
      exact Or.inr h2
    · simp only [h1, Bool.false_eq_true, if_false, h2, Except.isOk, Except.toBool]
      simp only [List.all_eq_true] at h2
      have h1' : ¬ pp = [] := fun hh => h1 (by simp [hh])
      simp [h1', h2]

/-- The conclusion of claim C10 for a party `pp` and the constructed state:
the party is installed unchanged, the initial active monster is not fainted,
the lead is index 0 whenever the first member is healthy, and in general the
active index is the smallest index of a non-fainted member. -/
def initialLeadSpec (pp : List Monster) (b : BattleState) : Prop :=
  b.player_party = pp ∧
  b.playerMonster.is_fainted = false ∧
  ((pp.getD 0 default).is_fainted = false → b.active_index = 0) ∧
  (pp.getD b.active_index default).is_fainted = false ∧
  ∀ j < b.active_index, (pp.getD j default).is_fainted = true

/-- Claim C10: for every valid starting party (containing a non-fainted
member), a successful construction picks index 0 when the first member is
healthy and otherwise the smallest non-fainted index, so the initial active
player monster is never fainted. -/
theorem C10_initial_lead (pp : List Monster) (em : Monster) (mps : Nat)
    (tr : Option TrainerInfo) (ep : Option (List Monster)) (b : BattleState)
    (hvalid : ∃ m ∈ pp, m.is_fainted = false)
    (hok : BattleState.init pp em mps tr ep = Except.ok b) :
    initialLeadSpec pp b := by
  simp only [BattleState.init] at hok
  split at hok
  · exact absurd hok (by simp)
  · split at hok
    · exact absurd hok (by simp)
    · rename_i h1 h2
      simp only [Except.ok.injEq] at hok
      subst hok
      by_cases h0 : (pp.getD 0 default).is_fainted
      · rw [if_pos h0]
        obtain ⟨m, hm, hmf⟩ := hvalid
        obtain ⟨i, hi, rfl⟩ := List.mem_iff_getElem.mp hm
        have hp : (fun idx => !(pp.getD idx default).is_fainted) i = true := by
          simp [List.getD_eq_getElem?_getD, List.getElem?_eq_getElem hi, hmf]
        obtain ⟨k, hk⟩ : ∃ k, (List.range pp.length).find?
            (fun idx => !(pp.getD idx default).is_fainted) = some k := by
          cases hfind : (List.range pp.length).find?
              (fun idx => !(pp.getD idx default).is_fainted) with
          | none =>
            exact absurd hp (by
              simpa using List.find?_eq_none.mp hfind i (List.mem_range.mpr hi))
          | some k => exact ⟨k, rfl⟩
        obtain ⟨hpk, hkmem, hmin⟩ := List.find?_range_eq_some.mp hk
        refine ⟨rfl, ?_, ?_, ?_, ?_⟩ <;>
          simp only [BattleState.playerMonster, hk, Option.getD_some]
        · simpa using hpk
        · intro hcon; rw [hcon] at h0; exact absurd h0 (by simp)
        · simpa using hpk
        · intro j hj
          have := hmin j hj
          simpa using this
      · rw [if_neg h0]
        simp only [Bool.not_eq_true] at h0
        exact ⟨rfl, by simpa [BattleState.playerMonster] using h0, fun _ => rfl, h0,
          fun j hj => absurd hj (Nat.not_lt_zero j)⟩

/-- Witness for C10: a party whose lead is fainted and whose second member is
healthy; the constructed state selects index 1. -/
theorem C10_initial_lead_witness :
    (∃ m ∈ [(⟨"F", 1, 20, 0, 5, 4, 3, "fire", [], 0, 20⟩ : Monster),
        ⟨"G", 1, 20, 5, 5, 4, 3, "water", [], 0, 20⟩], m.is_fainted = false) ∧
    initialLeadSpec
      [⟨"F", 1, 20, 0, 5, 4, 3, "fire", [], 0, 20⟩, ⟨"G", 1, 20, 5, 5, 4, 3, "water", [], 0, 20⟩]
      ((BattleState.init
        [⟨"F", 1, 20, 0, 5, 4, 3, "fire", [], 0, 20⟩, ⟨"G", 1, 20, 5, 5, 4, 3, "water", [], 0, 20⟩]
        ⟨"E", 1, 20, 20, 5, 4, 3, "grass", [], 0, 20⟩ 6 none none).toOption.getD default) :=
  ⟨by decide,
    C10_initial_lead
      [⟨"F", 1, 20, 0, 5, 4, 3, "fire", [], 0, 20⟩, ⟨"G", 1, 20, 5, 5, 4, 3, "water", [], 0, 20⟩]
      ⟨"E", 1, 20, 20, 5, 4, 3, "grass", [], 0, 20⟩ 6 none none
      ((BattleState.init
        [⟨"F", 1, 20, 0, 5, 4, 3, "fire", [], 0, 20⟩, ⟨"G", 1, 20, 5, 5, 4, 3, "water", [], 0, 20⟩]
        ⟨"E", 1, 20, 20, 5, 4, 3, "grass", [], 0, 20⟩ 6 none none).toOption.getD default)
      (by decide) (by rfl)⟩

/-- The conclusion of claim C8 for a monster with `exp = 0` and an award
`amount`: an award exactly at the threshold produces one level-up message and
leaves `exp = 0`; an award exceeding it by a remainder below the grown
threshold leaves `exp` equal to that remainder; and a defeated enemy is
worth `10 + level × 5` EXP. -/
def gainBoundarySpec (m : Monster) (amount : Nat) : Prop :=
  (amount = m.exp_to_next →
    (m.gain_experience amount).2.length = 1 ∧ (m.gain_experience amount).1.exp = 0) ∧
  (∀ r : Nat, 0 < r → r < max 20 (13 * m.exp_to_next / 10) →
    amount = m.exp_to_next + r → (m.gain_experience amount).1.exp = r) ∧
  (∀ defeated : Monster, calculate_exp_gain defeated = 10 + defeated.level * 5)

/-- Claim C8: for every monster with `exp = 0`, awarding exactly
`exp_to_next` EXP yields exactly one level-up message and resets `exp` to 0;
overshooting by a remainder below the grown threshold leaves `exp` at that
remainder; and `calculate_exp_gain` is `10 + level × 5`. -/
theorem C8_levelup_boundary (m : Monster) (amount : Nat) (h0 : m.exp = 0) :
    gainBoundarySpec m amount := by
  have hmax := Nat.le_max_left 20 (13 * m.exp_to_next / 10)
  refine ⟨?_, ?_, fun _ => rfl⟩
  · intro ha
    have h1 : ({ m with exp := m.exp + amount } : Monster).exp_to_next ≤
        ({ m with exp := m.exp + amount } : Monster).exp := by
      simp [h0, ha]
    rw [Monster.gain_experience, gainLoop_of_le h1]
    have h2 : (levelUpStep { m with exp := m.exp + amount }).exp <
        (levelUpStep { m with exp := m.exp + amount }).exp_to_next := by
      simp only [levelUpStep]
      omega
    rw [gainLoop_of_lt h2]
    refine ⟨rfl, ?_⟩
    simp only [levelUpStep]
    omega
  · intro r hr hrlt ha
    have h1 : ({ m with exp := m.exp + amount } : Monster).exp_to_next ≤
        ({ m with exp := m.exp + amount } : Monster).exp := by
      simp [h0, ha]
    rw [Monster.gain_experience, gainLoop_of_le h1]
    have h2 : (levelUpStep { m with exp := m.exp + amount }).exp <
        (levelUpStep { m with exp := m.exp + amount }).exp_to_next := by
      simp only [levelUpStep]
      omega
    rw [gainLoop_of_lt h2]
    simp only [levelUpStep]
    omega

/-- Witness for C8: the boundary behaviour at a fresh level-1 monster with
threshold 20 awarded exactly 20 EXP. -/
theorem C8_levelup_boundary_witness :
    (⟨"A", 1, 20, 20, 5, 4, 3, "fire", [], 0, 20⟩ : Monster).exp = 0 ∧
    gainBoundarySpec ⟨"A", 1, 20, 20, 5, 4, 3, "fire", [], 0, 20⟩ 20 :=
  ⟨rfl, C8_levelup_boundary _ 20 rfl⟩

theorem gainLoop_fst_of_le {m : Monster} (h : m.exp_to_next ≤ m.exp) :
    (gainLoop m).1 = (gainLoop (levelUpStep m)).1 := by
  rw [gainLoop_of_le h]

theorem levelUpStep_add (m : Monster) (a : Nat) (h : m.exp_to_next ≤ m.exp) :
    levelUpStep { m with exp := m.exp + a } =
      { levelUpStep m with exp := (levelUpStep m).exp + a } := by
  have hexp : m.exp + a - m.exp_to_next = m.exp - m.exp_to_next + a := by omega
  simp [levelUpStep, Monster.mk.injEq, hexp]

theorem gainMeasure_lt (m : Monster) (h : m.exp_to_next ≤ m.exp) :
    2 * (levelUpStep m).exp + (if (levelUpStep m).exp_to_next = 0 then 1 else 0) <
      2 * m.exp + (if m.exp_to_next = 0 then 1 else 0) := by
  simp only [levelUpStep]
  have h20 := Nat.le_max_left 20 (13 * m.exp_to_next / 10)
  rw [if_neg (by omega)]
  split <;> omega

theorem gainLoop_add_aux (n : Nat) :
    ∀ m : Monster, 2 * m.exp + (if m.exp_to_next = 0 then 1 else 0) ≤ n → ∀ a : Nat,
      (gainLoop { (gainLoop m).1 with exp := (gainLoop m).1.exp + a }).1 =
        (gainLoop { m with exp := m.exp + a }).1 := by
  induction n with
  | zero =>
    intro m hm a
    have h : m.exp < m.exp_to_next := by
      by_cases ht : m.exp_to_next = 0
      · rw [if_pos ht] at hm; omega
      · rw [if_neg ht] at hm; omega
    rw [show (gainLoop m).1 = m from by rw [gainLoop_of_lt h]]
  | succ n ihn =>
    intro m hm a
    by_cases h : m.exp_to_next ≤ m.exp
    · have hdec : 2 * (levelUpStep m).exp +
          (if (levelUpStep m).exp_to_next = 0 then 1 else 0) ≤ n := by
        have := gainMeasure_lt m h
        omega
      rw [gainLoop_fst_of_le h, ihn (levelUpStep m) hdec a]
      have h2 : ({ m with exp := m.exp + a } : Monster).exp_to_next ≤
          ({ m with exp := m.exp + a } : Monster).exp := by
        simpa using le_trans h (Nat.le_add_right _ _)
      rw [gainLoop_fst_of_le h2, levelUpStep_add m a h]
    · rw [show (gainLoop m).1 = m from by rw [gainLoop_of_lt (Nat.lt_of_not_le h)]]

/-- Draining the level-up loop, topping up `exp` by `a`, and draining again
reaches the same monster as topping up by `a` first and draining once. -/
theorem gainLoop_add (m : Monster) (a : Nat) :
    (gainLoop { (gainLoop m).1 with exp := (gainLoop m).1.exp + a }).1 =
      (gainLoop { m with exp := m.exp + a }).1 :=
  gainLoop_add_aux (2 * m.exp + (if m.exp_to_next = 0 then 1 else 0)) m le_rfl a

/-- One-at-a-time awarding: fold `gain_experience` over a list of amounts. -/
def awardAll (m : Monster) (amounts : List Nat) : Monster :=
  amounts.foldl (fun mm a => (mm.gain_experience a).1) m

theorem gain_experience_add (m : Monster) (a1 a2 : Nat) :
    ((m.gain_experience a1).1.gain_experience a2).1 =
      (m.gain_experience (a1 + a2)).1 := by
  simp only [Monster.gain_experience]
  rw [gainLoop_add { m with exp := m.exp + a1 } a2]
  have hrec : ({ ({ m with exp := m.exp + a1 } : Monster) with
      exp := ({ m with exp := m.exp + a1 } : Monster).exp + a2 } : Monster) =
      { m with exp := m.exp + (a1 + a2) } := by
    simp [Monster.mk.injEq, Nat.add_assoc]
  rw [hrec]

/-- Claim C4: awarding a non-empty list of EXP amounts one at a time via
`gain_experience` produces exactly the same monster (level, all stats,
current HP, exp and threshold) as awarding the total in a single call. -/
theorem C4_split_equals_lump (m : Monster) (a : Nat) (l : List Nat) :
    awardAll m (a :: l) = (m.gain_experience (a :: l).sum).1 := by
  induction l generalizing m a with
  | nil =>
    simp [awardAll]
  | cons b l ih =>
    have hfold : awardAll m (a :: b :: l) = awardAll (m.gain_experience a).1 (b :: l) := rfl
    rw [hfold, ih, gain_experience_add]
    simp [List.sum_cons]

/-- The per-monster HP invariant: `current_hp` within `[0, max_hp]` (the
lower bound is inherent in the `Nat` embedding). -/
def hpOk (m : Monster) : Prop :=
  m.current_hp ≤ m.max_hp

/-- The HP invariant over both parties of a battle. -/
def partyHpInv (b : BattleState) : Prop :=
  (∀ m ∈ b.player_party, hpOk m) ∧ (∀ m ∈ b.enemy_party, hpOk m)

theorem hpOk_default : hpOk default := by
  unfold hpOk
  decide

theorem hpOk_getD (l : List Monster) (i : Nat) (hl : ∀ m ∈ l, hpOk m) :
    hpOk (l.getD i default) := by
  by_cases h : i < l.length
  · rw [List.getD_eq_getElem l default h]
    exact hl _ (List.getElem_mem h)
  · rw [List.getD_eq_getElem?_getD, List.getElem?_eq_none (by omega)]
    exact hpOk_default

theorem hpOk_set (l : List Monster) (i : Nat) (x : Monster)
    (hl : ∀ m ∈ l, hpOk m) (hx : hpOk x) : ∀ m ∈ l.set i x, hpOk m := by
  intro m hm
  rcases List.mem_or_eq_of_mem_set hm with h | h
  · exact hl m h
  · subst h
    exact hx

theorem gainLoop_hpOk_aux (n : Nat) :
    ∀ m : Monster, 2 * m.exp + (if m.exp_to_next = 0 then 1 else 0) ≤ n →
      hpOk m → hpOk (gainLoop m).1 := by
  induction n with
  | zero =>
    intro m hm h
    have hlt : m.exp < m.exp_to_next := by
      by_cases ht : m.exp_to_next = 0
      · rw [if_pos ht] at hm; omega
      · rw [if_neg ht] at hm; omega
    rw [show (gainLoop m).1 = m from by rw [gainLoop_of_lt hlt]]
    exact h
  | succ n ihn =>
    intro m hm h
    by_cases hc : m.exp_to_next ≤ m.exp
    · have hdec : 2 * (levelUpStep m).exp +
          (if (levelUpStep m).exp_to_next = 0 then 1 else 0) ≤ n := by
        have := gainMeasure_lt m hc
        omega
      rw [gainLoop_fst_of_le hc]
      exact ihn (levelUpStep m) hdec (by simp [hpOk, levelUpStep])
    · rw [show (gainLoop m).1 = m from by rw [gainLoop_of_lt (Nat.lt_of_not_le hc)]]
      exact h

theorem gain_experience_hpOk (m : Monster) (amount : Nat) (h : hpOk m) :
    hpOk (m.gain_experience amount).1 :=
  gainLoop_hpOk_aux _ { m with exp := m.exp + amount } le_rfl h

theorem execute_player_turn_hpInv (b : BattleState) (move : Move) (accRoll U : ℚ)
    (hb : partyHpInv b) : partyHpInv (execute_player_turn b move accRoll U) := by
  obtain ⟨hp, he⟩ := hb
  have hdef : hpOk (b.enemyMonster) := hpOk_getD _ _ he
  simp only [execute_player_turn]
  split
  · exact ⟨hp, he⟩
  · split
    · refine ⟨hp, ?_⟩
      exact hpOk_set _ _ _ he (by simpa [hpOk] using Nat.le_trans (Nat.sub_le _ _) hdef)
    · refine ⟨hp, ?_⟩
      exact hpOk_set _ _ _ he (by simpa [hpOk] using Nat.le_trans (Nat.sub_le _ _) hdef)

theorem execute_enemy_turn_hpInv (b : BattleState) (moveIndex : Nat) (accRoll U : ℚ)
    (hb : partyHpInv b) : partyHpInv (execute_enemy_turn b moveIndex accRoll U) := by
  obtain ⟨hp, he⟩ := hb
  have hdef : hpOk (b.playerMonster) := hpOk_getD _ _ hp
  simp only [execute_enemy_turn]
  split
  · exact ⟨hp, he⟩
  · split
    · refine ⟨?_, he⟩
      exact hpOk_set _ _ _ hp (by simpa [hpOk] using Nat.le_trans (Nat.sub_le _ _) hdef)
    · refine ⟨?_, he⟩
      exact hpOk_set _ _ _ hp (by simpa [hpOk] using Nat.le_trans (Nat.sub_le _ _) hdef)

/-- Claim C2: HP stays within `[0, max_hp]` across a player turn, an enemy
turn, a heal and an experience award, and under the `Nat` embedding
`is_fainted` holds exactly when `current_hp = 0`. -/
theorem C2_hp_invariant (b : BattleState) (move : Move) (moveIndex : Nat)
    (accRoll U accRoll2 U2 : ℚ) (mon : Monster) (amount : Nat)
    (hb : partyHpInv b) (hm : hpOk mon) :
    partyHpInv (execute_player_turn b move accRoll U) ∧
    partyHpInv (execute_enemy_turn b moveIndex accRoll2 U2) ∧
    hpOk mon.heal ∧
    hpOk (mon.gain_experience amount).1 ∧
    (mon.is_fainted = true ↔ mon.current_hp = 0) :=
  ⟨execute_player_turn_hpInv b move accRoll U hb,
    execute_enemy_turn_hpInv b moveIndex accRoll2 U2 hb,
    le_refl _,
    gain_experience_hpOk mon amount hm,
    by simp [Monster.is_fainted, Nat.le_zero]⟩

/-- A concrete player monster used to instantiate proved theorems. -/
def monA : Monster :=
  ⟨"A", 1, 20, 20, 5, 4, 3, "fire", [⟨"Jab", 10, 1, "normal"⟩], 0, 20⟩

/-- A concrete enemy monster used to instantiate proved theorems. -/
def monE : Monster :=
  ⟨"E", 1, 20, 20, 4, 4, 3, "water", [⟨"Nuzzle", 10, 1, "normal"⟩], 0, 20⟩

/-- A concrete wild one-on-one battle used to instantiate proved theorems. -/
def battleWild : BattleState :=
  { player_party := [monA]
    trainer_info := none
    enemy_party := [monE]
    enemy_active_index := 0
    max_party_size := 6
    active_index := 0
    switch_index := 0
    force_switch := false
    menu_state := .action
    action_index := 0
    move_index := 0
    message_queue := []
    pending_enemy_turn := false
    after_battle_callback := none
    ended := false
    action_options := ["Fight", "Switch", "Catch", "Run"]
    captured_monster := none
    captured_to_storage := false
    trainer_defeated := false
    badge_earned := none }

/-- Witness for C2: the invariant preservation instantiated at the concrete
wild battle. -/
theorem C2_hp_invariant_witness :
    partyHpInv battleWild ∧ hpOk monA ∧
    (partyHpInv (execute_player_turn battleWild ⟨"Jab", 10, 1, "normal"⟩ (1/2) (9/10)) ∧
     partyHpInv (execute_enemy_turn battleWild 0 (1/2) (9/10)) ∧
     hpOk monA.heal ∧
     hpOk (monA.gain_experience 25).1 ∧
     (monA.is_fainted = true ↔ monA.current_hp = 0)) := by
  have hb : partyHpInv battleWild := by
    unfold partyHpInv hpOk battleWild monA monE
    decide
  have hm : hpOk monA := by
    unfold hpOk monA
    decide
  exact ⟨hb, hm,
    C2_hp_invariant battleWild ⟨"Jab", 10, 1, "normal"⟩ 0 (1/2) (9/10) (1/2) (9/10) monA 25 hb hm⟩

/-- The enemy HP remaining after the player's hit in `execute_player_turn`:
`max(0, current_hp - damage)` in the source, truncated subtraction here. -/
def enemyHpAfterHit (b : BattleState) (move : Move) (U : ℚ) : Nat :=
  b.enemyMonster.current_hp - (calculate_damage b.playerMonster b.enemyMonster move U).toNat

/-- Claim C6: if the move hits and the enemy monster faints, no enemy turn is
pending when the handler returns; if the defender survives (hit or miss),
an enemy turn is pending and the menu returns to `action`. -/
theorem C6_faint_preempts_enemy_turn (b : BattleState) (move : Move) (accRoll U : ℚ) :
    (accuracy_check move accRoll = true → enemyHpAfterHit b move U = 0 →
      (execute_player_turn b move accRoll U).pending_enemy_turn = false) ∧
    (accuracy_check move accRoll = false ∨ enemyHpAfterHit b move U ≠ 0 →
      (execute_player_turn b move accRoll U).pending_enemy_turn = true ∧
      (execute_player_turn b move accRoll U).menu_state = MenuState.action) := by
  constructor
  · intro hacc hhp
    simp only [execute_player_turn, hacc, Bool.true_eq_false, if_false]
    split
    · rfl
    · rename_i hcon
      refine absurd ?_ hcon
      simp only [Monster.is_fainted, decide_eq_true_eq, Nat.le_zero]
      exact hhp
  · intro hsur
    by_cases hacc : accuracy_check move accRoll = true
    · have hhp : enemyHpAfterHit b move U ≠ 0 := by
        rcases hsur with h | h
        · rw [hacc] at h
          exact absurd h (by simp)
        · exact h
      simp only [execute_player_turn, hacc, Bool.true_eq_false, if_false]
      split
      · rename_i hcon
        exfalso
        apply hhp
        simp only [Monster.is_fainted, decide_eq_true_eq, Nat.le_zero] at hcon
        exact hcon
      · exact ⟨rfl, rfl⟩
    · have hacc' : accuracy_check move accRoll = false := by
        cases h2 : accuracy_check move accRoll
        · rfl
        · exact absurd h2 hacc
      simp only [execute_player_turn, hacc', eq_self_iff_true, if_true]
      exact ⟨trivial, trivial⟩

/-- Witness for C6: a hit at full accuracy that leaves the enemy alive marks
an enemy turn pending and returns to the action menu. -/
theorem C6_faint_preempts_enemy_turn_witness :
    (accuracy_check ⟨"Jab", 10, 1, "normal"⟩ (1/2) = false ∨
      enemyHpAfterHit battleWild ⟨"Jab", 10, 1, "normal"⟩ (9/10) ≠ 0) ∧
    ((execute_player_turn battleWild ⟨"Jab", 10, 1, "normal"⟩ (1/2) (9/10)).pending_enemy_turn = true ∧
     (execute_player_turn battleWild ⟨"Jab", 10, 1, "normal"⟩ (1/2) (9/10)).menu_state = MenuState.action) := by
  have hval : enemyHpAfterHit battleWild ⟨"Jab", 10, 1, "normal"⟩ (9/10) = 9 := by
    simp only [enemyHpAfterHit, battleWild, monA, monE, calculate_damage,
      BattleState.playerMonster, BattleState.enemyMonster, List.getD_cons_zero]
    norm_num [max_def]
    decide
  have hsur : accuracy_check ⟨"Jab", 10, 1, "normal"⟩ (1/2) = false ∨
      enemyHpAfterHit battleWild ⟨"Jab", 10, 1, "normal"⟩ (9/10) ≠ 0 := by
    right
    rw [hval]
    norm_num
  exact ⟨hsur,
    (C6_faint_preempts_enemy_turn battleWild ⟨"Jab", 10, 1, "normal"⟩ (1/2) (9/10)).2 hsur⟩

/-- The conclusion of claim C9: confirming an ineligible switch target leaves
every battle field unchanged except for one rejection message appended to
the queue. -/
def switchRejectSpec (b : BattleState) : Prop :=
  (handle_switch_confirm b).active_index = b.active_index ∧
  (handle_switch_confirm b).playerMonster = b.playerMonster ∧
  (handle_switch_confirm b).menu_state = b.menu_state ∧
  (handle_switch_confirm b).force_switch = b.force_switch ∧
  (handle_switch_confirm b).pending_enemy_turn = b.pending_enemy_turn ∧
  ∃ t, handle_switch_confirm b = b.queue_message t none

/-- Claim C9: in switch-select, confirming the currently-active index or a
fainted party member enqueues a rejection message and changes nothing else. -/
theorem C9_switch_reject (b : BattleState)
    (hmenu : b.menu_state = MenuState.switch)
    (hrej : b.switch_index = b.active_index ∨
      (b.player_party.getD b.switch_index default).is_fainted = true) :
    switchRejectSpec b := by
  by_cases h1 : b.switch_index = b.active_index
  · unfold switchRejectSpec handle_switch_confirm
    rw [if_pos h1]
    exact ⟨rfl, rfl, rfl, rfl, rfl, "That monster is already in battle!", rfl⟩
  · have h2 : (b.player_party.getD b.switch_index default).is_fainted = true := by
      rcases hrej with h | h
      · exact absurd h h1
      · exact h
    unfold switchRejectSpec handle_switch_confirm
    rw [if_neg h1, if_pos (by exact h2)]
    exact ⟨rfl, rfl, rfl, rfl, rfl,
      (b.player_party.getD b.switch_index default).name ++ " can\x27t fight!", rfl⟩

/-- Witness for C9: in a switch menu with the cursor on the already-active
slot, confirming changes nothing but the queue. -/
theorem C9_switch_reject_witness :
    ({ battleWild with menu_state := MenuState.switch } : BattleState).menu_state =
      MenuState.switch ∧
    switchRejectSpec { battleWild with menu_state := MenuState.switch } := by
  have hmenu : ({ battleWild with menu_state := MenuState.switch } : BattleState).menu_state =
      MenuState.switch := rfl
  have hrej : ({ battleWild with menu_state := MenuState.switch } : BattleState).switch_index =
      ({ battleWild with menu_state := MenuState.switch } : BattleState).active_index ∨
      (({ battleWild with menu_state := MenuState.switch } : BattleState).player_party.getD
        ({ battleWild with menu_state := MenuState.switch } : BattleState).switch_index
        default).is_fainted = true := Or.inl rfl
  exact ⟨hmenu, C9_switch_reject _ hmenu hrej⟩

theorem queue_message_queue (b : BattleState) (t : String) (c : Option Cb) :
    (b.queue_message t c).message_queue = b.message_queue ++ [⟨t, c⟩] := rfl

theorem queue_texts_queue (texts : List String) : ∀ b : BattleState,
    (b.queue_texts texts).message_queue =
      b.message_queue ++ texts.map (fun t => ⟨t, none⟩) := by
  induction texts with
  | nil =>
    intro b
    simp [BattleState.queue_texts]
  | cons t ts ih =>
    intro b
    show (BattleState.queue_texts (b.queue_message t none) ts).message_queue = _
    rw [ih]
    simp [BattleState.queue_message]

theorem handle_trainer_follow_up_queue (b : BattleState) :
    ∃ xs, (handle_trainer_follow_up b).message_queue = b.message_queue ++ xs := by
  rcases htr : b.trainer_info with _ | tr
  · exact ⟨[], by simp [handle_trainer_follow_up, htr]⟩
  · rcases hn : b.next_enemy_index with _ | idx
    · simp only [handle_trainer_follow_up, htr, hn]
      split
      · split
        · exact ⟨[], by simp⟩
        · exact ⟨[], by simp⟩
      · split
        · exact ⟨dialogueMessages tr.name tr.dialogue_after, rfl⟩
        · exact ⟨dialogueMessages tr.name tr.dialogue_after, rfl⟩
    · simp only [handle_trainer_follow_up, htr, hn]
      exact ⟨_, rfl⟩

theorem runCb_queue_append (cb : Cb) (b : BattleState) :
    ∃ enq, (runCb cb b).message_queue = b.message_queue ++ enq := by
  cases cb with
  | awardExp i g =>
    simp only [runCb]
    obtain ⟨xs, hxs⟩ := handle_trainer_follow_up_queue
      (BattleState.queue_texts
        { b with player_party :=
            b.player_party.set i ((b.player_party.getD i default).gain_experience g).1 }
        ((b.player_party.getD i default).gain_experience g).2)
    rw [hxs, queue_texts_queue]
    exact ⟨List.map (fun t => ⟨t, none⟩) ((b.player_party.getD i default).gain_experience g).2 ++ xs,
      by rw [List.append_assoc]⟩
  | handleFaint =>
    rcases hf : b.first_available_switch with _ | idx
    · exact ⟨[], by simp [runCb, hf]⟩
    · exact ⟨[], by simp [runCb, hf]⟩
  | finishCapture =>
    simp only [runCb]
    split
    · exact ⟨_, rfl⟩
    · exact ⟨[], by simp⟩
  | endBattle => exact ⟨[], by simp [runCb]⟩
  | finishBattleDialogue => exact ⟨[], by simp [runCb]⟩

/-- Claim C3: the message queue is strict FIFO.  `queue_message` appends at
the back; with a non-empty queue, `pop_message` removes exactly the front
unit; the advance step runs the popped unit's callback exactly once on the
popped state (and nothing when there is none); and every callback only
appends new units at the back of the queue. -/
theorem C3_message_queue_fifo (b : BattleState) (t : String) (c : Option Cb)
    (u : Message) (rest : List Message) (hq : b.message_queue = u :: rest) :
    (b.queue_message t c).message_queue = b.message_queue ++ [⟨t, c⟩] ∧
    b.pop_message = (some u, { b with message_queue := rest }) ∧
    (∀ cb, u.callback = some cb →
      advanceMessage b = runCb cb { b with message_queue := rest }) ∧
    (u.callback = none → advanceMessage b = { b with message_queue := rest }) ∧
    (∀ cb b2, ∃ enq, (runCb cb b2).message_queue = b2.message_queue ++ enq) := by
  refine ⟨queue_message_queue b t c, ?_, ?_, ?_, fun cb b2 => runCb_queue_append cb b2⟩
  · simp only [BattleState.pop_message, hq]
  · intro cb hcb
    simp only [advanceMessage, BattleState.pop_message, hq, hcb]
  · intro hcb
    simp only [advanceMessage, BattleState.pop_message, hq, hcb]

/-- Witness for C3: one queued unit with no callback; advancing pops it and
leaves the emptied queue. -/
theorem C3_message_queue_fifo_witness :
    ({ battleWild with message_queue := [⟨"A wild E appeared!", none⟩] } :
        BattleState).message_queue = [⟨"A wild E appeared!", none⟩] ∧
    (({ battleWild with message_queue := [⟨"A wild E appeared!", none⟩] } :
        BattleState).queue_message "Go A!" none).message_queue =
      ({ battleWild with message_queue := [⟨"A wild E appeared!", none⟩]} :
        BattleState).message_queue ++ [⟨"Go A!", none⟩] ∧
    ({ battleWild with message_queue := [⟨"A wild E appeared!", none⟩] } :
        BattleState).pop_message =
      (some ⟨"A wild E appeared!", none⟩, { battleWild with message_queue := [] }) ∧
    (∀ cb, (⟨"A wild E appeared!", none⟩ : Message).callback = some cb →
      advanceMessage { battleWild with message_queue := [⟨"A wild E appeared!", none⟩] } =
        runCb cb { battleWild with message_queue := [] }) ∧
    ((⟨"A wild E appeared!", none⟩ : Message).callback = none →
      advanceMessage { battleWild with message_queue := [⟨"A wild E appeared!", none⟩] } =
        { battleWild with message_queue := [] }) ∧
    (∀ cb b2, ∃ enq, (runCb cb b2).message_queue = b2.message_queue ++ enq) :=
  ⟨rfl, (C3_message_queue_fifo
    { battleWild with message_queue := [⟨"A wild E appeared!", none⟩] }
    "Go A!" none ⟨"A wild E appeared!", none⟩ [] rfl).1,
   (C3_message_queue_fifo
    { battleWild with message_queue := [⟨"A wild E appeared!", none⟩] }
    "Go A!" none ⟨"A wild E appeared!", none⟩ [] rfl).2.1,
   (C3_message_queue_fifo
    { battleWild with message_queue := [⟨"A wild E appeared!", none⟩] }
    "Go A!" none ⟨"A wild E appeared!", none⟩ [] rfl).2.2.1,
   (C3_message_queue_fifo
    { battleWild with message_queue := [⟨"A wild E appeared!", none⟩] }
    "Go A!" none ⟨"A wild E appeared!", none⟩ [] rfl).2.2.2.1,
   (C3_message_queue_fifo
    { battleWild with message_queue := [⟨"A wild E appeared!", none⟩] }
    "Go A!" none ⟨"A wild E appeared!", none⟩ [] rfl).2.2.2.2⟩
